import Mathlib

/-!
Verification of the deterministic content-addressable generation cache of the
GenAI Image Studio app (src/streamlit_app.py and src/IMPstreamlit_app.py).

The Python core is shallowly embedded:
* text is `List Char`; Python `str.strip` / `str.split` / `str.lower` /
  substring tests are modelled over the ASCII character classes the code uses;
* `validate_prompt`, `get_cache_path` (the canonical `|`-delimited key and its
  SHA-256 hex digest, which is the store key — the surrounding cache-directory
  path and the `.png` suffix are constants) are translated directly;
* SHA-256 itself is implemented over `Nat` with explicit `% 2^32` arithmetic,
  following FIPS 180-4, exactly as `hashlib.sha256(...).hexdigest()` computes;
* `generate_image` is embedded as a state-passing function over an explicit
  artifact store (fingerprint → bytes) and an environment describing the one
  remote call and the store's write/delete outcomes; PIL decoding/encoding is
  an abstract codec pair `(decode, save)`.  A Python exception escaping the
  function is an `Except.error`; a returned 4-tuple is an `Except.ok`.
* the batch loop of `render_batch_generation` is embedded as a fold that
  threads the store, aborting only if `generate` raises.
-/

-- ────────────────────────────────────────────────────────────────────────────
-- Text primitives (Python str over ASCII, as used by the app)
-- ────────────────────────────────────────────────────────────────────────────

/-- The ASCII whitespace characters recognised by Python `str.strip()` /
`str.split()` on the inputs this app handles. -/
def pyIsSpace (c : Char) : Bool :=
  c = ' ' || c = '\t' || c = '\n' || c = '\r' || c = '\x0b' || c = '\x0c'

/-- Python `s.strip()`: drop leading and trailing whitespace. -/
def pyStrip (l : List Char) : List Char :=
  ((l.dropWhile pyIsSpace).reverse.dropWhile pyIsSpace).reverse

/-- Helper for `wordCount`: count maximal non-whitespace runs; the flag says
whether the scan is currently inside a run. -/
def countWords : List Char → Bool → Nat
  | [], _ => 0
  | c :: t, inw =>
    if pyIsSpace c then countWords t false
    else (if inw then 0 else 1) + countWords t true

/-- Python `len(s.split())`: the number of whitespace-separated words. -/
def wordCount (l : List Char) : Nat := countWords l false

/-- Python `needle in hay`: contiguous-substring test. -/
def hasSub (needle : List Char) : List Char → Bool
  | [] => needle.isEmpty
  | c :: t => List.isPrefixOf needle (c :: t) || hasSub needle t

/-- Python `s.lower()` on the ASCII range (all denylist terms are ASCII). -/
def pyLower (l : List Char) : List Char := l.map Char.toLower

/-- Little-endian base-10 digits, fuel-indexed so the recursion is structural;
`natDigits` instantiates the fuel with the number itself. -/
def natDigitsAux : Nat → Nat → List Nat
  | 0, _ => []
  | _ + 1, 0 => []
  | fuel + 1, n + 1 => (n + 1) % 10 :: natDigitsAux fuel ((n + 1) / 10)

/-- Little-endian base-10 digits of `n` (empty for `0`). -/
def natDigits (n : Nat) : List Nat := natDigitsAux n n

/-- Python `str(n)` for a natural number: its decimal numeral. -/
def natChars (n : Nat) : List Char :=
  if n = 0 then ['0'] else ((natDigits n).map Nat.digitChar).reverse

-- ────────────────────────────────────────────────────────────────────────────
-- validate_prompt (src/streamlit_app.py lines 100-117, identical in the
-- IMP variant lines 134-151)
-- ────────────────────────────────────────────────────────────────────────────

/-- MAX_PROMPT_LENGTH. -/
def MAX_PROMPT_LENGTH : Nat := 500

/-- MIN_PROMPT_WORDS. -/
def MIN_PROMPT_WORDS : Nat := 3

/-- The denylist `blocked_terms` of `validate_prompt`. -/
def blockedTerms : List (List Char) :=
  ["nsfw".toList, "explicit".toList, "adult".toList, "nude".toList]

/-- `any(term in prompt.lower() for term in blocked_terms)`. -/
def hasBlockedTerm (prompt : List Char) : Bool :=
  blockedTerms.any (fun term => hasSub term (pyLower prompt))

/-- `validate_prompt`: the `(is_valid, message)` pair returned by the app.
`not prompt or not prompt.strip()` is equivalent to the strip being empty. -/
def validate_prompt (prompt : List Char) : Bool × List Char :=
  if pyStrip prompt = [] then (false, "Prompt cannot be empty".toList)
  else if prompt.length > MAX_PROMPT_LENGTH then
    (false, "Prompt too long (max 500 characters)".toList)
  else if wordCount (pyStrip prompt) < MIN_PROMPT_WORDS then
    (false, "Prompt too short (minimum 3 words)".toList)
  else if hasBlockedTerm prompt then
    (false, "Prompt contains inappropriate content".toList)
  else (true, "Valid prompt".toList)

-- ────────────────────────────────────────────────────────────────────────────
-- The generation request and its canonical cache key
-- (get_cache_path, src/streamlit_app.py lines 119-125)
-- ────────────────────────────────────────────────────────────────────────────

/-- The five parameters of `generate_image` / `get_cache_path`. -/
structure GenRequest where
  prompt : List Char
  negative : List Char
  style : List Char
  width : Nat
  height : Nat
  deriving DecidableEq, Repr

/-- The canonical delimited string
`f"{prompt}|{negative}|{style}|{width}|{height}"` of `get_cache_path`. -/
def cacheKey (r : GenRequest) : List Char :=
  r.prompt ++ '|' :: (r.negative ++ '|' :: (r.style ++ '|' ::
    (natChars r.width ++ '|' :: natChars r.height)))

-- ────────────────────────────────────────────────────────────────────────────
-- UTF-8 (Python str.encode()) and SHA-256 (hashlib.sha256(...).hexdigest())
-- ────────────────────────────────────────────────────────────────────────────

/-- One byte sequence of UTF-8 for one code point. -/
def utf8Char (c : Char) : List Nat :=
  let n := c.toNat
  if n < 128 then [n]
  else if n < 2048 then [192 + n / 64, 128 + n % 64]
  else if n < 65536 then [224 + n / 4096, 128 + n / 64 % 64, 128 + n % 64]
  else [240 + n / 262144, 128 + n / 4096 % 64, 128 + n / 64 % 64, 128 + n % 64]

/-- Python `s.encode()`: UTF-8 bytes of the string. -/
def utf8Encode (s : List Char) : List Nat := (s.map utf8Char).flatten

/-- Truncation to a 32-bit word. -/
def w32 (x : Nat) : Nat := x % 4294967296

/-- 32-bit right rotation (argument assumed < 2^32). -/
def rotr32 (n x : Nat) : Nat := w32 ((x >>> n) ||| (x <<< (32 - n)))

/-- SHA-256 Ch(e,f,g); complement taken by xor with the 32-bit mask. -/
def shaCh (e f g : Nat) : Nat := (e &&& f) ^^^ ((e ^^^ 4294967295) &&& g)

/-- SHA-256 Maj(a,b,c). -/
def shaMaj (a b c : Nat) : Nat := (a &&& b) ^^^ (a &&& c) ^^^ (b &&& c)

/-- SHA-256 Σ0. -/
def bigSigma0 (a : Nat) : Nat := rotr32 2 a ^^^ rotr32 13 a ^^^ rotr32 22 a

/-- SHA-256 Σ1. -/
def bigSigma1 (e : Nat) : Nat := rotr32 6 e ^^^ rotr32 11 e ^^^ rotr32 25 e

/-- SHA-256 σ0. -/
def smallSigma0 (x : Nat) : Nat := rotr32 7 x ^^^ rotr32 18 x ^^^ (x >>> 3)

/-- SHA-256 σ1. -/
def smallSigma1 (x : Nat) : Nat := rotr32 17 x ^^^ rotr32 19 x ^^^ (x >>> 10)

/-- The 64 SHA-256 round constants (fractional cube roots of the primes). -/
def shaK : List Nat :=
  [1116352408, 1899447441, 3049323471, 3921009573, 961987163, 1508970993,
   2453635748, 2870763221, 3624381080, 310598401, 607225278, 1426881987,
   1925078388, 2162078206, 2614888103, 3248222580, 3835390401, 4022224774,
   264347078, 604807628, 770255983, 1249150122, 1555081692, 1996064986,
   2554220882, 2821834349, 2952996808, 3210313671, 3336571891, 3584528711,
   113926993, 338241895, 666307205, 773529912, 1294757372, 1396182291,
   1695183700, 1986661051, 2177026350, 2456956037, 2730485921, 2820302411,
   3259730800, 3345764771, 3516065817, 3600352804, 4094571909, 275423344,
   430227734, 506948616, 659060556, 883997877, 958139571, 1322822218,
   1537002063, 1747873779, 1955562222, 2024104815, 2227730452, 2361852424,
   2428436474, 2756734187, 3204031479, 3329325298]

/-- The 8 initial hash words (fractional square roots of the primes). -/
def shaH0 : List Nat :=
  [1779033703, 3144134277, 1013904242, 2773480762, 1359893119, 2600822924,
   528734635, 1541459225]

/-- FIPS 180-4 padding: `0x80`, zeros to 56 mod 64, 8-byte big-endian bit
length. -/
def shaPad (msg : List Nat) : List Nat :=
  let bitLen := 8 * msg.length
  msg ++ 128 :: List.replicate ((64 - (msg.length + 9) % 64) % 64) 0 ++
    (List.range 8).map (fun i => bitLen >>> (8 * (7 - i)) % 256)

/-- The 16 big-endian message words of one 64-byte block. -/
def blockWords (block : List Nat) : List Nat :=
  (List.range 16).map fun i =>
    block.getD (4 * i) 0 <<< 24 ||| block.getD (4 * i + 1) 0 <<< 16 |||
      block.getD (4 * i + 2) 0 <<< 8 ||| block.getD (4 * i + 3) 0

/-- Extend the 16 message words to the 64-entry schedule. -/
def shaSchedule (ws : List Nat) : List Nat :=
  (List.range 48).foldl
    (fun acc t =>
      acc ++ [w32 (smallSigma1 (acc.getD (t + 14) 0) + acc.getD (t + 9) 0 +
        smallSigma0 (acc.getD (t + 1) 0) + acc.getD t 0)])
    ws

/-- One SHA-256 round on the 8-word working state. -/
def shaRound (st : List Nat) (kw : Nat × Nat) : List Nat :=
  match st with
  | [a, b, c, d, e, f, g, h] =>
    let t1 := w32 (h + bigSigma1 e + shaCh e f g + kw.1 + kw.2)
    let t2 := w32 (bigSigma0 a + shaMaj a b c)
    [w32 (t1 + t2), a, b, c, w32 (d + t1), e, f, g]
  | other => other

/-- Process one 64-byte block into the running hash. -/
def shaBlock (h : List Nat) (block : List Nat) : List Nat :=
  let st := ((shaK.zip (shaSchedule (blockWords block)))).foldl
    (fun s kw => shaRound s kw) h
  (h.zip st).map fun p => w32 (p.1 + p.2)

/-- The 8 final hash words of a byte message. -/
def sha256Words (msg : List Nat) : List Nat :=
  let padded := shaPad msg
  ((List.range (padded.length / 64)).map
    (fun i => (padded.drop (64 * i)).take 64)).foldl shaBlock shaH0

/-- The 256-bit digest as one natural number (big-endian word order). -/
def sha256Nat (msg : List Nat) : Nat :=
  (sha256Words msg).foldl (fun acc w => acc * 4294967296 + w) 0

/-- Python `hexdigest()`: the 64 lowercase hex characters of the digest, most
significant nibble first. -/
def sha256Hex (msg : List Nat) : List Char :=
  (List.range 64).map fun i => Nat.digitChar (sha256Nat msg / 16 ^ (63 - i) % 16)

/-- The fingerprint of a request: the SHA-256 hex digest of the canonical
delimited key, i.e. the `hash_key` of `get_cache_path` (the store key; the
constant cache-directory prefix and `.png` suffix are elided). -/
def fingerprint (r : GenRequest) : List Char := sha256Hex (utf8Encode (cacheKey r))

-- ────────────────────────────────────────────────────────────────────────────
-- The artifact store, the external environment, and generate_image
-- (src/streamlit_app.py lines 127-187; identical in the IMP variant with
-- enhancement disabled, which is how the batch path calls it)
-- ────────────────────────────────────────────────────────────────────────────

/-- Raw bytes (each entry a byte value). -/
abbrev Bytes := List Nat

/-- The filesystem cache as a key-value store: fingerprint → stored bytes.
The head-most binding for a key is the current one. -/
abbrev Store := List (List Char × Bytes)

/-- Read the artifact under a fingerprint (`os.path.exists` + file read). -/
def storeGet (s : Store) (k : List Char) : Option Bytes := List.lookup k s

/-- `os.remove(cache_path)`: drop every binding of the key. -/
def storeDelete (s : Store) (k : List Char) : Store :=
  s.filter (fun p => !(p.1 == k))

/-- `img.save(cache_path, "PNG")`: overwrite the key with the bytes. -/
def storePut (s : Store) (k : List Char) (v : Bytes) : Store :=
  (k, v) :: storeDelete s k

/-- What the single `requests.get` of a `generate_image` call does:
`timeout` (requests.exceptions.Timeout), `netError`
(requests.exceptions.RequestException, including `raise_for_status`), or a
response body together with the elapsed wall-clock time. -/
inductive NetOutcome
  | timeout
  | netError (msg : List Char)
  | ok (content : Bytes) (elapsed : Nat)
  deriving DecidableEq, Repr

/-- What the single `img.save` of the call does: succeed, raise leaving
nothing at the path, or raise midway leaving partial bytes at the path. -/
inductive WriteOutcome
  | ok
  | failClean (msg : List Char)
  | failPartial (junk : Bytes) (msg : List Char)
  deriving DecidableEq, Repr

/-- The external behaviour one `generate_image` call observes.  `deleteOk`
says whether the `os.remove` of a corrupt cache entry succeeds; in the code
that call sits inside the `except` handler but outside any `try`, so its
failure escapes the function. -/
structure SynthEnv where
  net : NetOutcome
  write : WriteOutcome
  deleteOk : Bool
  deriving DecidableEq, Repr

/-- The 4-tuple `(img, source, elapsed, message)` returned by
`generate_image`. -/
structure ResultEnv (Image : Type) where
  img : Option Image
  source : List Char
  elapsed : Nat
  message : List Char
  deriving DecidableEq, Repr

/-- The fresh-synthesis half of `generate_image` (everything from
`start_time = time.time()` on), for a fingerprint whose cache entry is
absent (or already removed).  `decode` is `Image.open` on bytes, `save` the
PNG serialisation; an undecodable response or a failed save is caught by
the generic `except Exception` and reported as an error envelope. -/
def synthFresh {Image : Type} (decode : Bytes → Option Image)
    (save : Image → Bytes) (fp : List Char) (env : SynthEnv) (store : Store) :
    Except (List Char) (ResultEnv Image) × Store :=
  match env.net with
  | .timeout =>
    (.ok ⟨none, "error".toList, 0, "Request timed out".toList⟩, store)
  | .netError m =>
    (.ok ⟨none, "error".toList, 0, "Network error: ".toList ++ m⟩, store)
  | .ok content elapsed =>
    match decode content with
    | none =>
      (.ok ⟨none, "error".toList, 0,
        "Unexpected error: cannot identify image file".toList⟩, store)
    | some img =>
      match env.write with
      | .ok =>
        (.ok ⟨some img, "api".toList, elapsed, "Generated successfully".toList⟩,
          storePut store fp (save img))
      | .failClean m =>
        (.ok ⟨none, "error".toList, 0, "Unexpected error: ".toList ++ m⟩, store)
      | .failPartial junk m =>
        (.ok ⟨none, "error".toList, 0, "Unexpected error: ".toList ++ m⟩,
          storePut store fp junk)

/-- `generate_image`: check the cache, heal a corrupt entry (deleting it and
falling through), otherwise call the endpoint and persist the result.  An
`Except.error` is a Python exception escaping the function — which happens
exactly when the `os.remove` of a corrupt entry fails. -/
def generate {Image : Type} (decode : Bytes → Option Image)
    (save : Image → Bytes) (req : GenRequest) (env : SynthEnv) (store : Store) :
    Except (List Char) (ResultEnv Image) × Store :=
  let fp := fingerprint req
  match storeGet store fp with
  | some bytes =>
    match decode bytes with
    | some img =>
      (.ok ⟨some img, "cache".toList, 0, "Loaded from cache".toList⟩, store)
    | none =>
      if env.deleteOk then
        synthFresh decode save fp env (storeDelete store fp)
      else (.error "OSError raised by os.remove".toList, store)
  | none => synthFresh decode save fp env store

-- ────────────────────────────────────────────────────────────────────────────
-- The batch loop (src/IMPstreamlit_app.py: render_batch_generation,
-- lines 494-504 for the prompt list, lines 792-813 for the results loop)
-- ────────────────────────────────────────────────────────────────────────────

/-- BATCH_LIMIT. -/
def BATCH_LIMIT : Nat := 5

/-- One entry of `batch_results`: on success the dict
`(prompt, image-bytes, success=True)`, on failure
`(prompt, error-message, success=False)`. -/
structure BatchEntry where
  prompt : List Char
  image : Option Bytes
  errMsg : Option (List Char)
  success : Bool
  deriving DecidableEq, Repr

/-- Build one `batch_results` entry from a returned envelope (`if img:` in
the loop body; the stored payload is the PNG serialisation of the image). -/
def mkBatchEntry {Image : Type} (save : Image → Bytes) (p : List Char)
    (r : ResultEnv Image) : BatchEntry :=
  match r.img with
  | some img => ⟨p, some (save img), none, true⟩
  | none => ⟨p, none, some r.message, false⟩

/-- Environment used when the supplied per-item environment list runs out
(never reached in the theorems below). -/
def defaultEnv : SynthEnv := ⟨.timeout, .ok, true⟩

/-- The `for batch_prompt in batch_prompts:` loop: each prompt is generated
with empty exclusions and the shared style and dimensions, threading the
store; an uncaught exception aborts the whole loop. -/
def generateBatch {Image : Type} (decode : Bytes → Option Image)
    (save : Image → Bytes) (ps : List (List Char)) (style : List Char)
    (w h : Nat) (envs : List SynthEnv) (store : Store) :
    Except (List Char) (List BatchEntry) × Store :=
  match ps with
  | [] => (.ok [], store)
  | p :: rest =>
    match generate decode save ⟨p, [], style, w, h⟩ (envs.headD defaultEnv) store with
    | (.error m, store') => (.error m, store')
    | (.ok r, store') =>
      match generateBatch decode save rest style w h envs.tail store' with
      | (.error m, store'') => (.error m, store'')
      | (.ok rs, store'') => (.ok (mkBatchEntry save p r :: rs), store'')

/-- Python `text.split('\n')`. -/
def splitNl : List Char → List (List Char)
  | [] => [[]]
  | c :: t =>
    let r := splitNl t
    if c = '\n' then [] :: r
    else (c :: r.headD []) :: r.tail

/-- `[p.strip() for p in batch_prompts if p.strip()]`: the non-empty stripped
lines of the text area, in input order. -/
def prepBatchPrompts (raw : List Char) : List (List Char) :=
  ((splitNl raw).map pyStrip).filter (fun p => !p.isEmpty)

/-- The truncation `batch_prompts = batch_prompts[:BATCH_LIMIT]` applied when
more than BATCH_LIMIT prompts were entered. -/
def truncatedBatch (raw : List Char) : List (List Char) :=
  let ps := prepBatchPrompts raw
  if ps.length > BATCH_LIMIT then ps.take BATCH_LIMIT else ps

-- ────────────────────────────────────────────────────────────────────────────
-- A concrete executable codec standing in for PIL in witnesses: an image is
-- its pixel data, serialised behind a 4-byte magic prefix
-- ────────────────────────────────────────────────────────────────────────────

/-- The 4 magic bytes of the witness codec (the PNG signature head). -/
def pngMagic : Bytes := [137, 80, 78, 71]

/-- A model image: its pixel data. -/
abbrev MImage := List Nat

/-- Witness serialiser: magic prefix then pixel data. -/
def mSave (i : MImage) : Bytes := pngMagic ++ i

/-- Witness decoder: bytes decode exactly when they carry the magic prefix. -/
def mDecode (b : Bytes) : Option MImage :=
  if List.isPrefixOf pngMagic b then some (b.drop 4) else none

/-- The witness codec round-trips: decoding a serialised image recovers it. -/
theorem mDecode_mSave (i : MImage) : mDecode (mSave i) = some i := by
  have hpre : List.isPrefixOf pngMagic (pngMagic ++ i) = true := by
    simp [List.isPrefixOf_iff_prefix]
  simp [mDecode, mSave, hpre, pngMagic]

-- ────────────────────────────────────────────────────────────────────────────
-- Decimal numerals: evaluation, injectivity, absence of the delimiter
-- ────────────────────────────────────────────────────────────────────────────

/-- Value of a little-endian digit list. -/
def unDigits : List Nat → Nat
  | [] => 0
  | d :: t => d + 10 * unDigits t

theorem unDigits_natDigitsAux :
    ∀ (fuel n : Nat), n ≤ fuel → unDigits (natDigitsAux fuel n) = n := by
  intro fuel
  induction fuel with
  | zero =>
    intro n hn
    interval_cases n
    rfl
  | succ fuel ih =>
    intro n hn
    match n with
    | 0 => rfl
    | m + 1 =>
      have hdiv : (m + 1) / 10 ≤ fuel := by
        have := Nat.div_lt_self (Nat.succ_pos m) (by omega : 1 < 10)
        omega
      simp only [natDigitsAux, unDigits, ih _ hdiv]
      omega

theorem unDigits_natDigits (n : Nat) : unDigits (natDigits n) = n :=
  unDigits_natDigitsAux n n (Nat.le_refl n)

theorem natDigits_inj {m n : Nat} (h : natDigits m = natDigits n) : m = n := by
  have hm := unDigits_natDigits m
  rw [h, unDigits_natDigits] at hm
  exact hm.symm

theorem natDigitsAux_lt_ten :
    ∀ (fuel n d : Nat), d ∈ natDigitsAux fuel n → d < 10 := by
  intro fuel
  induction fuel with
  | zero => intro n d hd; simp [natDigitsAux] at hd
  | succ fuel ih =>
    intro n d hd
    match n with
    | 0 => simp [natDigitsAux] at hd
    | m + 1 =>
      simp only [natDigitsAux, List.mem_cons] at hd
      rcases hd with h | h
      · omega
      · exact ih _ _ h

theorem natDigits_lt_ten {n d : Nat} (hd : d ∈ natDigits n) : d < 10 :=
  natDigitsAux_lt_ten n n d hd

theorem digitChar_inj_lt_ten :
    ∀ a < 10, ∀ b < 10, Nat.digitChar a = Nat.digitChar b → a = b := by decide

theorem map_digitChar_inj :
    ∀ (l1 l2 : List Nat), (∀ x ∈ l1, x < 10) → (∀ x ∈ l2, x < 10) →
      l1.map Nat.digitChar = l2.map Nat.digitChar → l1 = l2 := by
  intro l1
  induction l1 with
  | nil => intro l2 _ _ h; cases l2 <;> simp_all
  | cons a t ih =>
    intro l2 h1 h2 h
    cases l2 with
    | nil => simp at h
    | cons b t2 =>
      simp only [List.map_cons, List.cons.injEq] at h
      have ha : a < 10 := h1 a (List.mem_cons_self a t)
      have hb : b < 10 := h2 b (List.mem_cons_self b t2)
      have hab := digitChar_inj_lt_ten a ha b hb h.1
      have ht := ih t2 (fun x hx => h1 x (List.mem_cons_of_mem a hx))
        (fun x hx => h2 x (List.mem_cons_of_mem b hx)) h.2
      rw [hab, ht]

theorem natChars_inj {m n : Nat} (h : natChars m = natChars n) : m = n := by
  unfold natChars at h
  by_cases hm : m = 0 <;> by_cases hn : n = 0
  · omega
  · exfalso
    simp only [hm, if_pos rfl, if_neg hn] at h
    have h' : (natDigits n).map Nat.digitChar = ['0'] := by
      have h2 := congrArg List.reverse h
      simpa using h2.symm
    have h0 : natDigits n = [0] :=
      map_digitChar_inj _ [0] (fun x hx => natDigits_lt_ten hx) (by simp) h'
    have hv := unDigits_natDigits n
    rw [h0] at hv
    simp [unDigits] at hv
    exact hn hv.symm
  · exfalso
    simp only [hn, if_neg hm, if_pos rfl] at h
    have h' : (natDigits m).map Nat.digitChar = ['0'] := by
      have h2 := congrArg List.reverse h
      simpa using h2
    have h0 : natDigits m = [0] :=
      map_digitChar_inj _ [0] (fun x hx => natDigits_lt_ten hx) (by simp) h'
    have hv := unDigits_natDigits m
    rw [h0] at hv
    simp [unDigits] at hv
    exact hm hv.symm
  · simp only [if_neg hm, if_neg hn, List.reverse_inj] at h
    exact natDigits_inj (map_digitChar_inj _ _
      (fun x hx => natDigits_lt_ten hx) (fun x hx => natDigits_lt_ten hx) h)

theorem digitChar_ne_pipe : ∀ d < 10, Nat.digitChar d ≠ '|' := by decide

theorem pipe_not_mem_natChars (n : Nat) : '|' ∉ natChars n := by
  unfold natChars
  by_cases hn : n = 0
  · simp [hn]
  · simp only [if_neg hn, List.mem_reverse, List.mem_map]
    rintro ⟨d, hd, hchar⟩
    exact digitChar_ne_pipe d (natDigits_lt_ten hd) hchar

-- ────────────────────────────────────────────────────────────────────────────
-- Splitting a delimited concatenation at the first pipe
-- ────────────────────────────────────────────────────────────────────────────

theorem pipe_split :
    ∀ (a c b d : List Char), '|' ∉ a → '|' ∉ c →
      a ++ '|' :: b = c ++ '|' :: d → a = c ∧ b = d := by
  intro a
  induction a with
  | nil =>
    intro c b d _ hc h
    cases c with
    | nil => simpa using h
    | cons y ys =>
      exfalso
      simp only [List.nil_append, List.cons_append, List.cons.injEq] at h
      exact hc (h.1 ▸ List.mem_cons_self y ys)
  | cons x xs ih =>
    intro c b d ha hc h
    cases c with
    | nil =>
      exfalso
      simp only [List.cons_append, List.nil_append, List.cons.injEq] at h
      exact ha (h.1 ▸ List.mem_cons_self x xs)
    | cons y ys =>
      simp only [List.cons_append, List.cons.injEq] at h
      have hxs : '|' ∉ xs := fun hmem => ha (List.mem_cons_of_mem x hmem)
      have hys : '|' ∉ ys := fun hmem => hc (List.mem_cons_of_mem y hmem)
      obtain ⟨h1, h2⟩ := ih ys b d hxs hys h.2
      exact ⟨by rw [h.1, h1], h2⟩

-- ────────────────────────────────────────────────────────────────────────────
-- Store and orchestrator helper lemmas
-- ────────────────────────────────────────────────────────────────────────────

theorem storeGet_storePut (s : Store) (k : List Char) (v : Bytes) :
    storeGet (storePut s k v) k = some v := by
  simp [storeGet, storePut, List.lookup]

/-- Whether an `Except` result is a normal return (no exception escaped). -/
def exOk {E A : Type} : Except E A → Bool
  | .ok _ => true
  | .error _ => false

theorem pair_ok_of_exOk {E A S : Type} (x : Except E A × S)
    (h : exOk x.1 = true) : ∃ r s2, x = (.ok r, s2) := by
  rcases x with ⟨res, s2⟩
  cases res with
  | error e => simp [exOk] at h
  | ok r => exact ⟨r, s2, rfl⟩

theorem synthFresh_isOk {Image : Type} (decode : Bytes → Option Image)
    (save : Image → Bytes) (fp : List Char) (env : SynthEnv) (store : Store) :
    exOk (synthFresh decode save fp env store).1 = true := by
  unfold synthFresh
  split
  · rfl
  · rfl
  · split
    · rfl
    · split <;> rfl

theorem generate_isOk_of_deleteOk {Image : Type} (decode : Bytes → Option Image)
    (save : Image → Bytes) (req : GenRequest) (env : SynthEnv) (store : Store)
    (hdel : env.deleteOk = true) :
    exOk (generate decode save req env store).1 = true := by
  simp only [generate]
  split
  · split
    · rfl
    · simpa [hdel] using
        synthFresh_isOk decode save (fingerprint req) env
          (storeDelete store (fingerprint req))
  · exact synthFresh_isOk decode save (fingerprint req) env store

theorem generate_shape_of_deleteOk {Image : Type} (decode : Bytes → Option Image)
    (save : Image → Bytes) (req : GenRequest) (env : SynthEnv) (store : Store)
    (hdel : env.deleteOk = true) :
    ∃ r store2, generate decode save req env store = (.ok r, store2) :=
  pair_ok_of_exOk _ (generate_isOk_of_deleteOk decode save req env store hdel)

theorem mkBatchEntry_prompt {Image : Type} (save : Image → Bytes)
    (p : List Char) (r : ResultEnv Image) : (mkBatchEntry save p r).prompt = p := by
  cases h : r.img <;> simp [mkBatchEntry, h]

theorem generateBatch_shape {Image : Type} (decode : Bytes → Option Image)
    (save : Image → Bytes) :
    ∀ (ps : List (List Char)) (style : List Char) (w h : Nat)
      (envs : List SynthEnv) (store : Store),
      (∀ e ∈ envs, e.deleteOk = true) →
      ∃ rs, (generateBatch decode save ps style w h envs store).1 = .ok rs ∧
        rs.map (fun b => b.prompt) = ps := by
  intro ps
  induction ps with
  | nil => intro style w h envs store _; exact ⟨[], rfl, rfl⟩
  | cons p rest ih =>
    intro style w h envs store henv
    have hdel : (envs.headD defaultEnv).deleteOk = true := by
      cases envs with
      | nil => rfl
      | cons e es => exact henv e (List.mem_cons_self e es)
    obtain ⟨r, store', hgen⟩ :=
      generate_shape_of_deleteOk decode save ⟨p, [], style, w, h⟩
        (envs.headD defaultEnv) store hdel
    have htail : ∀ e ∈ envs.tail, e.deleteOk = true := by
      intro e he
      cases envs with
      | nil => simp at he
      | cons e0 es => exact henv e (List.mem_cons_of_mem e0 he)
    obtain ⟨rs, hrs, hmap⟩ := ih style w h envs.tail store' htail
    refine ⟨mkBatchEntry save p r :: rs, ?_, ?_⟩
    · simp only [generateBatch, hgen]
      rcases hb : generateBatch decode save rest style w h envs.tail store'
        with ⟨res2, store''⟩
      rw [hb] at hrs
      simp only at hrs
      rw [hrs]
    · simp [mkBatchEntry_prompt, hmap]

-- ────────────────────────────────────────────────────────────────────────────
-- Concrete requests, environments and stores used by witnesses
-- ────────────────────────────────────────────────────────────────────────────

/-- A plain pipe-free request. -/
def reqPlain : GenRequest :=
  ⟨"a majestic cat".toList, "blurry".toList, "cartoon".toList, 512, 512⟩

/-- The same field values as `reqPlain`, spelled separately. -/
def reqPlainCopy : GenRequest :=
  ⟨"a majestic cat".toList, "blurry".toList, "cartoon".toList, 512, 512⟩

/-- A request whose description contains the delimiter. -/
def reqPipeA : GenRequest :=
  ⟨"a|b".toList, "c".toList, "s".toList, 512, 512⟩

/-- A different request whose exclusion text absorbs the shifted delimiter. -/
def reqPipeB : GenRequest :=
  ⟨"a".toList, "b|c".toList, "s".toList, 512, 512⟩

-- ────────────────────────────────────────────────────────────────────────────
-- C1
-- ────────────────────────────────────────────────────────────────────────────

/-- C1 (counterexample): two requests that differ in their field values —
the delimiter character moved from the description into the exclusions —
build the same canonical `|`-delimited string, hence the same SHA-256
fingerprint.  The claimed injectivity of the canonical string on distinct
field tuples is false. -/
theorem C1_counterexample :
    reqPipeA ≠ reqPipeB ∧ cacheKey reqPipeA = cacheKey reqPipeB ∧
      fingerprint reqPipeA = fingerprint reqPipeB := by
  have hk : cacheKey reqPipeA = cacheKey reqPipeB := by decide
  exact ⟨by decide, hk, congrArg (fun k => sha256Hex (utf8Encode k)) hk⟩

/-- C1 (amended): restricted to requests none of whose text fields contains
the delimiter `|`, the canonical string of `get_cache_path` is injective —
distinct field tuples give distinct canonical strings (the digest being
modelled as injective, distinct fingerprints). -/
theorem C1_pipe_free_key_injective (r1 r2 : GenRequest)
    (h1p : '|' ∉ r1.prompt) (h1n : '|' ∉ r1.negative) (h1s : '|' ∉ r1.style)
    (h2p : '|' ∉ r2.prompt) (h2n : '|' ∉ r2.negative) (h2s : '|' ∉ r2.style)
    (hkey : cacheKey r1 = cacheKey r2) : r1 = r2 := by
  unfold cacheKey at hkey
  obtain ⟨hp, hkey⟩ := pipe_split _ _ _ _ h1p h2p hkey
  obtain ⟨hn, hkey⟩ := pipe_split _ _ _ _ h1n h2n hkey
  obtain ⟨hs, hkey⟩ := pipe_split _ _ _ _ h1s h2s hkey
  obtain ⟨hw, hh⟩ := pipe_split _ _ _ _ (pipe_not_mem_natChars r1.width)
    (pipe_not_mem_natChars r2.width) hkey
  have hww := natChars_inj hw
  have hhh := natChars_inj hh
  cases r1
  cases r2
  simp_all

/-- C1 (witness for the amended theorem), at a concrete pipe-free request. -/
theorem C1_pipe_free_witness : reqPlain = reqPlainCopy :=
  C1_pipe_free_key_injective reqPlain reqPlainCopy (by decide) (by decide)
    (by decide) (by decide) (by decide) (by decide) (by decide)

-- ────────────────────────────────────────────────────────────────────────────
-- C2
-- ────────────────────────────────────────────────────────────────────────────

/-- Environment for C2: the endpoint returns a decodable image, but the
`img.save` write fails midway, leaving the partial bytes `[9, 9]` at the
cache path. -/
def envC2 : SynthEnv :=
  ⟨.ok (mSave [1, 2, 3]) 7, .failPartial [9, 9] "No space left on device".toList, true⟩

/-- C2: the persist step of `generate_image` is a plain `img.save` to the
final cache path, so a write that fails midway leaves an entry under the
fingerprint whose bytes do not decode as an image — the store invariant the
claim asserts is violated.  Evaluated at the failing input: empty store,
successful synthesis, mid-write failure. -/
theorem C2_partial_write_leaves_invalid_entry :
    storeGet (generate mDecode mSave reqPlain envC2 []).2 (fingerprint reqPlain) =
      some [9, 9] ∧
    mDecode [9, 9] = none ∧
    (generate mDecode mSave reqPlain envC2 []).1 =
      .ok ⟨none, "error".toList, 0,
        "Unexpected error: No space left on device".toList⟩ := by
  have hgen : generate mDecode mSave reqPlain envC2 [] =
      (.ok ⟨none, "error".toList, 0,
        "Unexpected error: No space left on device".toList⟩,
       storePut [] (fingerprint reqPlain) [9, 9]) := rfl
  refine ⟨?_, by decide, ?_⟩
  · rw [hgen]
    exact storeGet_storePut [] (fingerprint reqPlain) [9, 9]
  · rw [hgen]

-- ────────────────────────────────────────────────────────────────────────────
-- C3
-- ────────────────────────────────────────────────────────────────────────────

/-- Store for C3: a corrupt (undecodable) artifact sits under the
fingerprint of `reqPlain`. -/
def storeC3 : Store := storePut [] (fingerprint reqPlain) [0, 0]

/-- Environment for C3: the `os.remove` of the corrupt entry fails. -/
def envC3 : SynthEnv := ⟨.ok (mSave [1]) 3, .ok, false⟩

/-- C3 (counterexample): `generate_image` does not return an envelope for
every store behaviour — when the cached artifact is corrupt and the
`os.remove` healing it fails, the exception escapes the function (the call
sits in the `except` handler, outside any `try`). -/
theorem C3_counterexample :
    exOk (generate mDecode mSave reqPlain envC3 storeC3).1 = false := by
  have hdec : mDecode [0, 0] = none := by decide
  simp only [generate, storeC3, storeGet_storePut, hdec]
  rfl

/-- C3 (amended): for every endpoint behaviour (timeout, transport error,
undecodable response bytes) and store write failure, `generate_image`
returns an envelope and raises nothing — provided the `os.remove` of a
corrupt cache entry succeeds (and, unmodelled, the cache-directory creation
in `get_cache_path` succeeds). -/
theorem C3_no_raise_of_delete_succeeds {Image : Type}
    (decode : Bytes → Option Image) (save : Image → Bytes) (req : GenRequest)
    (env : SynthEnv) (store : Store) (hdel : env.deleteOk = true) :
    ∃ r, (generate decode save req env store).1 = .ok r := by
  obtain ⟨r, store2, h⟩ :=
    generate_shape_of_deleteOk decode save req env store hdel
  exact ⟨r, by rw [h]⟩

/-- C3 (witness for the amended theorem), at a concrete request and
environment. -/
theorem C3_no_raise_witness :
    ∃ r, (generate mDecode mSave reqPlain defaultEnv []).1 = .ok r :=
  C3_no_raise_of_delete_succeeds mDecode mSave reqPlain defaultEnv [] rfl

-- ────────────────────────────────────────────────────────────────────────────
-- C4
-- ────────────────────────────────────────────────────────────────────────────

/-- Lowercase hexadecimal character test. -/
def isHexChar (c : Char) : Bool := c.isDigit || ('a' ≤ c && c ≤ 'f')

theorem digitChar_isHex_lt_sixteen :
    ∀ d < 16, isHexChar (Nat.digitChar d) = true := by decide

/-- C4: the fingerprint of `get_cache_path` is a pure function of the five
request fields — equal field values give an equal fingerprint, with no state
and no failure path in the embedding — and its value is always a fixed-width
identifier of exactly 64 lowercase hexadecimal characters (the SHA-256 hex
digest of the canonical delimited string, which is its definition). -/
theorem C4_fingerprint_deterministic_hex :
    (∀ r1 r2 : GenRequest, r1.prompt = r2.prompt → r1.negative = r2.negative →
      r1.style = r2.style → r1.width = r2.width → r1.height = r2.height →
      fingerprint r1 = fingerprint r2) ∧
    ∀ r : GenRequest,
      (fingerprint r).length = 64 ∧ (fingerprint r).all isHexChar = true := by
  constructor
  · intro r1 r2 hp hn hs hw hh
    cases r1
    cases r2
    simp_all
  · intro r
    constructor
    · simp [fingerprint, sha256Hex]
    · rw [List.all_eq_true]
      intro c hc
      simp only [fingerprint, sha256Hex, List.mem_map, List.mem_range] at hc
      obtain ⟨i, hi, hce⟩ := hc
      rw [← hce]
      exact digitChar_isHex_lt_sixteen _ (Nat.mod_lt _ (by omega))

/-- C4 (witness): determinism and fixed width at a concrete request. -/
theorem C4_fingerprint_witness :
    fingerprint reqPlain = fingerprint reqPlainCopy ∧
      (fingerprint reqPlain).length = 64 :=
  ⟨C4_fingerprint_deterministic_hex.1 reqPlain reqPlainCopy rfl rfl rfl rfl rfl,
   (C4_fingerprint_deterministic_hex.2 reqPlain).1⟩

-- ────────────────────────────────────────────────────────────────────────────
-- C5
-- ────────────────────────────────────────────────────────────────────────────

/-- C5: when the stored artifact under `fingerprint(R)` does not decode, the
entry is deleted and the call proceeds as a miss; if the synthesis then
succeeds, the call returns the fresh envelope (source "api", the code's
provenance-fresh tag) and re-persists the serialised image — which decodes —
under the fingerprint.  The corruption never surfaces as an error envelope. -/
theorem C5_corrupt_entry_self_heal {Image : Type} (decode : Bytes → Option Image)
    (save : Image → Bytes) (req : GenRequest) (env : SynthEnv) (store : Store)
    (bad content : Bytes) (elapsed : Nat) (img : Image)
    (hrt : ∀ i, decode (save i) = some i)
    (hget : storeGet store (fingerprint req) = some bad)
    (hbad : decode bad = none)
    (hdel : env.deleteOk = true)
    (hnet : env.net = .ok content elapsed)
    (hdec : decode content = some img)
    (hwr : env.write = .ok) :
    generate decode save req env store =
      (.ok ⟨some img, "api".toList, elapsed, "Generated successfully".toList⟩,
        storePut (storeDelete store (fingerprint req)) (fingerprint req)
          (save img)) ∧
    storeGet (generate decode save req env store).2 (fingerprint req) =
      some (save img) ∧
    decode (save img) = some img := by
  obtain ⟨net, write, delOk⟩ := env
  simp only at hnet hwr hdel
  subst hnet
  subst hwr
  subst hdel
  have hmain : generate decode save req ⟨.ok content elapsed, .ok, true⟩ store =
      (.ok ⟨some img, "api".toList, elapsed, "Generated successfully".toList⟩,
        storePut (storeDelete store (fingerprint req)) (fingerprint req)
          (save img)) := by
    simp only [generate, hget, hbad, synthFresh, hdec, if_true]
  exact ⟨hmain, by rw [hmain]; exact storeGet_storePut _ _ _, hrt img⟩

/-- Store for the C5 witness: a corrupt artifact under the fingerprint. -/
def storeC5 : Store := storePut [] (fingerprint reqPlain) [0, 0]

/-- Environment for the C5 witness: delete succeeds, synthesis succeeds. -/
def envC5 : SynthEnv := ⟨.ok (mSave [1, 2]) 4, .ok, true⟩

/-- C5 (witness), at a concrete corrupt store and successful synthesis. -/
theorem C5_self_heal_witness :
    generate mDecode mSave reqPlain envC5 storeC5 =
      (.ok ⟨some [1, 2], "api".toList, 4, "Generated successfully".toList⟩,
        storePut (storeDelete storeC5 (fingerprint reqPlain))
          (fingerprint reqPlain) (mSave [1, 2])) ∧
    storeGet (generate mDecode mSave reqPlain envC5 storeC5).2
      (fingerprint reqPlain) = some (mSave [1, 2]) ∧
    mDecode (mSave [1, 2]) = some [1, 2] :=
  C5_corrupt_entry_self_heal mDecode mSave reqPlain envC5 storeC5 [0, 0]
    (mSave [1, 2]) 4 [1, 2] mDecode_mSave (storeGet_storePut _ _ _) (by decide)
    rfl rfl (mDecode_mSave [1, 2]) rfl

-- ────────────────────────────────────────────────────────────────────────────
-- C6
-- ────────────────────────────────────────────────────────────────────────────

/-- C6: on a cache miss with successful synthesis and persist, the first
call returns the fresh envelope carrying the decoded image; an immediately
following call for the same request — under any environment — hits the cache
and returns the cached envelope carrying the identical image payload. -/
theorem C6_cache_round_trip {Image : Type} (decode : Bytes → Option Image)
    (save : Image → Bytes) (req : GenRequest) (env1 env2 : SynthEnv)
    (store : Store) (content : Bytes) (elapsed : Nat) (img : Image)
    (hrt : ∀ i, decode (save i) = some i)
    (hmiss : storeGet store (fingerprint req) = none)
    (hnet : env1.net = .ok content elapsed)
    (hdec : decode content = some img)
    (hwr : env1.write = .ok) :
    (generate decode save req env1 store).1 =
      .ok ⟨some img, "api".toList, elapsed, "Generated successfully".toList⟩ ∧
    (generate decode save req env2 (generate decode save req env1 store).2).1 =
      .ok ⟨some img, "cache".toList, 0, "Loaded from cache".toList⟩ := by
  obtain ⟨net, write, delOk⟩ := env1
  simp only at hnet hwr
  subst hnet
  subst hwr
  have h1 : generate decode save req ⟨.ok content elapsed, .ok, delOk⟩ store =
      (.ok ⟨some img, "api".toList, elapsed, "Generated successfully".toList⟩,
        storePut store (fingerprint req) (save img)) := by
    simp only [generate, hmiss, synthFresh, hdec]
  refine ⟨by rw [h1], ?_⟩
  rw [h1]
  simp only [generate, storeGet_storePut, hrt img]

/-- Environment for the C6 witness: successful synthesis of `[3, 1, 4]`. -/
def envC6 : SynthEnv := ⟨.ok (mSave [3, 1, 4]) 9, .ok, true⟩

/-- C6 (witness): round trip at a concrete request on the empty store. -/
theorem C6_round_trip_witness :
    (generate mDecode mSave reqPlain envC6 []).1 =
      .ok ⟨some [3, 1, 4], "api".toList, 9, "Generated successfully".toList⟩ ∧
    (generate mDecode mSave reqPlain defaultEnv
        (generate mDecode mSave reqPlain envC6 []).2).1 =
      .ok ⟨some [3, 1, 4], "cache".toList, 0, "Loaded from cache".toList⟩ :=
  C6_cache_round_trip mDecode mSave reqPlain envC6 defaultEnv []
    (mSave [3, 1, 4]) 9 [3, 1, 4] mDecode_mSave rfl rfl
    (mDecode_mSave [3, 1, 4]) rfl

-- ────────────────────────────────────────────────────────────────────────────
-- C7
-- ────────────────────────────────────────────────────────────────────────────

/-- C7: `validate_prompt` rejects an empty or whitespace-only description;
accepts a description of exactly 500 characters when the other checks pass;
rejects one character over as too long (before the word-count and denylist
checks); rejects fewer than 3 words as too short (before the denylist
check); and rejects any denylisted substring of the lowercased description
as inappropriate — the checks applied in exactly that order. -/
theorem C7_validate_prompt_boundaries :
    (∀ p : List Char, pyStrip p = [] →
      validate_prompt p = (false, "Prompt cannot be empty".toList)) ∧
    (∀ p : List Char, pyStrip p ≠ [] → p.length = 500 →
      3 ≤ wordCount (pyStrip p) → hasBlockedTerm p = false →
      validate_prompt p = (true, "Valid prompt".toList)) ∧
    (∀ p : List Char, pyStrip p ≠ [] → p.length = 501 →
      validate_prompt p = (false, "Prompt too long (max 500 characters)".toList)) ∧
    (∀ p : List Char, pyStrip p ≠ [] → p.length ≤ 500 →
      wordCount (pyStrip p) < 3 →
      validate_prompt p = (false, "Prompt too short (minimum 3 words)".toList)) ∧
    (∀ p : List Char, pyStrip p ≠ [] → p.length ≤ 500 →
      3 ≤ wordCount (pyStrip p) → hasBlockedTerm p = true →
      validate_prompt p =
        (false, "Prompt contains inappropriate content".toList)) := by
  refine ⟨?_, ?_, ?_, ?_, ?_⟩
  · intro p h
    simp [validate_prompt, h]
  · intro p h hlen hwc hblock
    simp [validate_prompt, MAX_PROMPT_LENGTH, MIN_PROMPT_WORDS, h, hlen,
      Nat.not_lt.mpr hwc, hblock]
  · intro p h hlen
    simp [validate_prompt, MAX_PROMPT_LENGTH, h, hlen]
  · intro p h hlen hwc
    simp [validate_prompt, MAX_PROMPT_LENGTH, MIN_PROMPT_WORDS, h, hwc]
    omega
  · intro p h hlen hwc hblock
    simp [validate_prompt, MAX_PROMPT_LENGTH, MIN_PROMPT_WORDS, h,
      Nat.not_lt.mpr hwc, hblock]
    omega

/-- A 500-character description: three words, then padding. -/
def prompt500 : List Char := 'a' :: ' ' :: 'b' :: ' ' :: List.replicate 496 'c'

/-- A 501-character description: `prompt500` with one more character. -/
def prompt501 : List Char := 'a' :: ' ' :: 'b' :: ' ' :: List.replicate 497 'c'

set_option maxRecDepth 8000 in
/-- C7 (witness): each boundary of the claim at a concrete prompt. -/
theorem C7_boundaries_witness :
    validate_prompt "   ".toList = (false, "Prompt cannot be empty".toList) ∧
    validate_prompt prompt500 = (true, "Valid prompt".toList) ∧
    validate_prompt prompt501 =
      (false, "Prompt too long (max 500 characters)".toList) ∧
    validate_prompt "a b".toList =
      (false, "Prompt too short (minimum 3 words)".toList) ∧
    validate_prompt "A MAJESTIC NSFW CAT".toList =
      (false, "Prompt contains inappropriate content".toList) :=
  ⟨C7_validate_prompt_boundaries.1 _ (by decide),
   C7_validate_prompt_boundaries.2.1 _ (by decide) (by decide) (by decide)
     (by decide),
   C7_validate_prompt_boundaries.2.2.1 _ (by decide) (by decide),
   C7_validate_prompt_boundaries.2.2.2.1 _ (by decide) (by decide) (by decide),
   C7_validate_prompt_boundaries.2.2.2.2 _ (by decide) (by decide) (by decide)
     (by decide)⟩

-- ────────────────────────────────────────────────────────────────────────────
-- C8
-- ────────────────────────────────────────────────────────────────────────────

/-- C8: changing exactly one field of a request while the other four are
held fixed always changes the canonical delimited string of
`get_cache_path` (so, with the digest modelled as injective, the
fingerprint) — this holds with no pipe-freeness assumption, because the
unchanged fields give both strings identical prefixes and suffixes. -/
theorem C8_single_field_sensitivity :
    (∀ (p p' n s : List Char) (w h : Nat), p ≠ p' →
      cacheKey ⟨p, n, s, w, h⟩ ≠ cacheKey ⟨p', n, s, w, h⟩) ∧
    (∀ (p n n' s : List Char) (w h : Nat), n ≠ n' →
      cacheKey ⟨p, n, s, w, h⟩ ≠ cacheKey ⟨p, n', s, w, h⟩) ∧
    (∀ (p n s s' : List Char) (w h : Nat), s ≠ s' →
      cacheKey ⟨p, n, s, w, h⟩ ≠ cacheKey ⟨p, n, s', w, h⟩) ∧
    (∀ (p n s : List Char) (w w' h : Nat), w ≠ w' →
      cacheKey ⟨p, n, s, w, h⟩ ≠ cacheKey ⟨p, n, s, w', h⟩) ∧
    (∀ (p n s : List Char) (w h h' : Nat), h ≠ h' →
      cacheKey ⟨p, n, s, w, h⟩ ≠ cacheKey ⟨p, n, s, w, h'⟩) := by
  refine ⟨?_, ?_, ?_, ?_, ?_⟩
  · intro p p' n s w h hne hkey
    simp only [cacheKey] at hkey
    exact hne (List.append_cancel_right hkey)
  · intro p n n' s w h hne hkey
    simp only [cacheKey, List.append_cancel_left_eq, List.cons.injEq,
      true_and] at hkey
    exact hne (List.append_cancel_right hkey)
  · intro p n s s' w h hne hkey
    simp only [cacheKey, List.append_cancel_left_eq, List.cons.injEq,
      true_and] at hkey
    exact hne (List.append_cancel_right hkey)
  · intro p n s w w' h hne hkey
    simp only [cacheKey, List.append_cancel_left_eq, List.cons.injEq,
      true_and] at hkey
    exact hne (natChars_inj (List.append_cancel_right hkey))
  · intro p n s w h h' hne hkey
    simp only [cacheKey, List.append_cancel_left_eq, List.cons.injEq,
      true_and] at hkey
    exact hne (natChars_inj hkey)

/-- C8 (witness): two requests differing only in the description have
different canonical strings. -/
theorem C8_sensitivity_witness :
    cacheKey ⟨"a cat x".toList, "b".toList, "s".toList, 512, 512⟩ ≠
      cacheKey ⟨"a dog y".toList, "b".toList, "s".toList, 512, 512⟩ :=
  C8_single_field_sensitivity.1 _ _ _ _ _ _ (by decide)

-- ────────────────────────────────────────────────────────────────────────────
-- C9
-- ────────────────────────────────────────────────────────────────────────────

/-- C9: for a list of at most BATCH_LIMIT prompts, the batch loop applies
`generate_image` to each prompt sequentially (threading the store) and —
whatever the per-item endpoint or write outcomes — produces exactly one
result entry per input, in input order; an error envelope on one item does
not abort or drop any subsequent item. -/
theorem C9_batch_order_one_per_input {Image : Type}
    (decode : Bytes → Option Image) (save : Image → Bytes)
    (ps : List (List Char)) (style : List Char) (w h : Nat)
    (envs : List SynthEnv) (store : Store)
    (_hlen : ps.length ≤ 5)
    (hdel : ∀ e ∈ envs, e.deleteOk = true) :
    ∃ rs, (generateBatch decode save ps style w h envs store).1 = .ok rs ∧
      rs.map (fun b => b.prompt) = ps ∧ rs.length = ps.length := by
  obtain ⟨rs, h1, h2⟩ := generateBatch_shape decode save ps style w h envs store hdel
  refine ⟨rs, h1, h2, ?_⟩
  rw [← h2, List.length_map]

/-- C9 (witness): a two-prompt batch in which the second item times out
still yields two entries in input order. -/
theorem C9_batch_witness :
    ∃ rs,
      (generateBatch mDecode mSave ["a cat x".toList, "b dog y".toList]
        ("s".toList) 512 512
        [⟨.ok (mSave [1]) 2, .ok, true⟩, ⟨.timeout, .ok, true⟩] []).1 = .ok rs ∧
      rs.map (fun b => b.prompt) = ["a cat x".toList, "b dog y".toList] ∧
      rs.length = 2 :=
  C9_batch_order_one_per_input mDecode mSave _ _ 512 512 _ [] (by decide)
    (by decide)

-- ────────────────────────────────────────────────────────────────────────────
-- C10
-- ────────────────────────────────────────────────────────────────────────────

/-- C10: when more than BATCH_LIMIT (5) non-empty stripped prompts are
submitted, only the first 5 in input order are kept and generated; the batch
produces exactly 5 result entries, which carry exactly those first 5
prompts, and the dropped prompts produce neither a result nor an error
entry. -/
theorem C10_batch_truncation {Image : Type} (decode : Bytes → Option Image)
    (save : Image → Bytes) (raw : List Char) (style : List Char) (w h : Nat)
    (envs : List SynthEnv) (store : Store)
    (hover : (prepBatchPrompts raw).length > BATCH_LIMIT)
    (hdel : ∀ e ∈ envs, e.deleteOk = true) :
    truncatedBatch raw = (prepBatchPrompts raw).take 5 ∧
    ∃ rs, (generateBatch decode save (truncatedBatch raw) style w h
        envs store).1 = .ok rs ∧
      rs.map (fun b => b.prompt) = (prepBatchPrompts raw).take 5 ∧
      rs.length = 5 := by
  have hover5 : (prepBatchPrompts raw).length > 5 := by
    simpa [BATCH_LIMIT] using hover
  have htr : truncatedBatch raw = (prepBatchPrompts raw).take 5 := by
    simp only [truncatedBatch, BATCH_LIMIT]
    rw [if_pos hover5]
  obtain ⟨rs, h1, h2⟩ := generateBatch_shape decode save (truncatedBatch raw)
    style w h envs store hdel
  refine ⟨htr, rs, h1, ?_, ?_⟩
  · rw [h2, htr]
  · have hl : rs.length = (truncatedBatch raw).length := by
      rw [← h2, List.length_map]
    rw [hl, htr, List.length_take]
    simp only [BATCH_LIMIT] at hover
    omega

/-- Six one-per-line prompts for the C10 witness. -/
def rawSix : List Char :=
  "p one x\np two x\np three x\np four x\np five x\np six x".toList

/-- C10 (witness): six submitted prompts produce exactly five entries, the
first five in order. -/
theorem C10_truncation_witness :
    truncatedBatch rawSix = (prepBatchPrompts rawSix).take 5 ∧
    ∃ rs, (generateBatch mDecode mSave (truncatedBatch rawSix) ("s".toList)
        512 512 [] []).1 = .ok rs ∧
      rs.map (fun b => b.prompt) = (prepBatchPrompts rawSix).take 5 ∧
      rs.length = 5 :=
  C10_batch_truncation mDecode mSave rawSix ("s".toList) 512 512 [] []
    (by decide) (by decide)
